import Mathlib

/-!
Verification of the clipstitch capture pipeline.

This file is a shallow embedding of `src/utils/videoProcessor.ts` — the
`stitchVideos` sequencer and the `playVideoToCanvas` per-clip driver —
together with the constants it consumes from `src/constants.ts`.

The browser host (DOM, `MediaRecorder`, `AudioContext`, object URLs,
`requestAnimationFrame`) is modelled as explicit parameters describing what
each host call does; every observable allocation, release and callback is
recorded in an event trace, and the promise returned by each function is an
explicit result value.  Numeric arithmetic in the frame geometry is modelled
exactly over `ℚ`; the degenerate IEEE-754 cases (division by zero, `0 * ∞`)
that `drawFrame` can hit on zero-dimension frames are modelled separately and
explicitly by `JSNum`.
-/

set_option autoImplicit false

namespace ClipStitch

/-- Canvas width from `src/constants.ts`. -/
def CANVAS_WIDTH : ℕ := 1280

/-- Canvas height from `src/constants.ts`. -/
def CANVAS_HEIGHT : ℕ := 720

/-- Capture frame rate from `src/constants.ts`. -/
def VIDEO_FRAME_RATE : ℕ := 30

/-! ## Frame geometry (`drawFrame`, src/utils/videoProcessor.ts lines 146-163) -/

/-- Destination rectangle of `ctx.drawImage(video, x, y, w, h)` as computed by
`drawFrame`. -/
structure DrawRect where
  x : ℚ
  y : ℚ
  w : ℚ
  h : ℚ
deriving DecidableEq

/-- The arithmetic of `drawFrame` (lines 153-158), modelled exactly over `ℚ`:
uniform scale `min (width / videoWidth) (height / videoHeight)`, applied to
the frame, then centred.  Valid reading of the source whenever both video
dimensions are nonzero (so no division by zero occurs); the zero-dimension
cases are covered by `drawFrame` below. -/
def drawFrameRect (width height videoWidth videoHeight : ℚ) : DrawRect :=
  let scale := min (width / videoWidth) (height / videoHeight)
  let w := videoWidth * scale
  let h := videoHeight * scale
  { x := (width - w) / 2, y := (height - h) / 2, w := w, h := h }

/-- A JavaScript number as the `drawFrame` arithmetic produces it: a finite
value (kept exact as a rational — every operation the claims inspect is about
sign/zero/NaN structure, not rounding), an infinity, or `NaN`. -/
inductive JSNum where
  | num (q : ℚ)
  | inf
  | negInf
  | nan
deriving DecidableEq

/-- JavaScript division of finite values: division by zero yields a signed
infinity, `0 / 0` yields `NaN`. -/
def jsDiv (a b : ℚ) : JSNum :=
  if b = 0 then
    if a = 0 then .nan else if 0 < a then .inf else .negInf
  else .num (a / b)

/-- JavaScript `Math.min`: `NaN` is absorbing, otherwise the usual order with
infinities. -/
def jsMin : JSNum → JSNum → JSNum
  | .nan, _ => .nan
  | _, .nan => .nan
  | .negInf, _ => .negInf
  | _, .negInf => .negInf
  | .inf, b => b
  | a, .inf => a
  | .num a, .num b => .num (min a b)

/-- JavaScript multiplication of a finite value by a `JSNum`: `0 * ∞ = NaN`. -/
def jsMulQ (a : ℚ) : JSNum → JSNum
  | .nan => .nan
  | .inf => if a = 0 then .nan else if 0 < a then .inf else .negInf
  | .negInf => if a = 0 then .nan else if 0 < a then .negInf else .inf
  | .num b => .num (a * b)

/-- JavaScript subtraction of a `JSNum` from a finite value. -/
def jsSubQ (a : ℚ) : JSNum → JSNum
  | .nan => .nan
  | .inf => .negInf
  | .negInf => .inf
  | .num b => .num (a - b)

/-- JavaScript division by two. -/
def jsHalf : JSNum → JSNum
  | .num b => .num (b / 2)
  | j => j

/-- Outcome of one `drawFrame` tick: either the `drawImage` call painted a
rectangle, or it returned without painting anything (leaving the freshly
filled black background). -/
inductive DrawOutcome where
  | skipped
  | painted (r : DrawRect)
deriving DecidableEq

/-- One tick of `drawFrame` (lines 146-163) for a playing (neither paused nor
ended) video, under JavaScript number semantics.  The closing
`ctx.drawImage(video, x, y, w, h)` follows the HTML canvas specification of
`drawImage`: the call returns silently, painting nothing and throwing
nothing, when the source has a zero dimension (the implicit source rectangle
is empty) or any destination argument is non-finite; otherwise it paints the
destination rectangle.  `drawFrame` itself contains no throwing operation. -/
def drawFrame (width height videoWidth videoHeight : ℚ) : DrawOutcome :=
  let scale := jsMin (jsDiv width videoWidth) (jsDiv height videoHeight)
  let w := jsMulQ videoWidth scale
  let h := jsMulQ videoHeight scale
  let x := jsHalf (jsSubQ width w)
  let y := jsHalf (jsSubQ height h)
  match x, y, w, h with
  | .num xq, .num yq, .num wq, .num hq =>
    if videoWidth = 0 ∨ videoHeight = 0 then .skipped
    else .painted ⟨xq, yq, wq, hq⟩
  | _, _, _, _ => .skipped

/-! ## The per-clip driver (`playVideoToCanvas`, lines 123-195) -/

/-- How a clip's playback finishes once started: the media element fires
`onended`, or fires `onerror` mid-playback (decode error).  Error payloads
are abstracted as numeric codes. -/
inductive PlayEnd where
  | ended
  | errored (e : ℕ)
deriving DecidableEq

/-- What `video.play()` does for a clip: reject, or resolve and then run to
one of the two `PlayEnd` outcomes. -/
inductive StartOutcome where
  | rejected (e : ℕ)
  | started (outcome : PlayEnd)
deriving DecidableEq

/-- What the `try { source = audioCtx.createMediaElementSource(video);
source.connect(destNode) } catch ...` block (lines 166-172) does: both calls
succeed, `createMediaElementSource` throws (so `source` stays null), or
`connect` throws (so `source` is non-null but unconnected). -/
inductive AttachOutcome where
  | ok
  | createThrew
  | connectThrew
deriving DecidableEq

/-- Host behaviour of one clip as `playVideoToCanvas` observes it: either the
media element fires `onerror` before `onloadedmetadata` ever runs, or
metadata loads, the audio attach has an `AttachOutcome`, and playback has a
`StartOutcome`. -/
inductive ClipBehavior where
  | errorBeforeMetadata (e : ℕ)
  | metadata (attach : AttachOutcome) (start : StartOutcome)
deriving DecidableEq

/-- Observable host effects of `playVideoToCanvas` for one clip. -/
inductive PEv where
  | createObjectURL
  | audioSourceCreated
  | audioConnected
  | audioAttachFailed
  | playCalled
  | audioDisconnected
  | revokeObjectURL
deriving DecidableEq

/-- Settlement of the promise returned by `playVideoToCanvas`. -/
inductive ClipResult where
  | resolved
  | rejected (e : ℕ)
deriving DecidableEq

/-- Events of the audio-attach `try` block (lines 166-172).  A throw from
either call is caught and logged with `console.warn`. -/
def attachEvents : AttachOutcome → List PEv
  | .ok => [.audioSourceCreated, .audioConnected]
  | .createThrew => [.audioAttachFailed]
  | .connectThrew => [.audioSourceCreated, .audioAttachFailed]

/-- Whether `source` is non-null after the attach block — exactly when
`createMediaElementSource` did not throw. -/
def sourceMade : AttachOutcome → Bool
  | .createThrew => false
  | _ => true

/-- `playVideoToCanvas` (lines 123-195) as the ordered trace of host effects
it performs and the settlement of the promise it returns, as a function of
the host behaviour for the clip.

* line 134: `URL.createObjectURL(file)` always runs first;
* a media `onerror` before metadata rejects with the error event; `source`
  is still null, so nothing is disconnected, and the object URL is not
  revoked (line 184 runs only inside `onended`);
* on `onloadedmetadata` the attach block runs (lines 166-172), then
  `video.play()` is called; a rejection of `play()` is forwarded straight to
  `reject` (line 176) with no cleanup of any kind;
* `onended` (lines 179-186) disconnects the audio source if one was made,
  revokes the object URL, and resolves;
* `onerror` during playback (lines 188-193) disconnects the audio source if
  one was made and rejects; it does not revoke the object URL.

The per-frame capture loop (`drawFrame`/`requestAnimationFrame`) performs no
resource allocation or release and settles nothing; its geometry is modelled
separately by `drawFrame`. -/
def playVideoToCanvas (b : ClipBehavior) : List PEv × ClipResult :=
  match b with
  | .errorBeforeMetadata e => ([.createObjectURL], .rejected e)
  | .metadata attach start =>
    let cleanup : List PEv := if sourceMade attach then [.audioDisconnected] else []
    match start with
    | .rejected e =>
        (.createObjectURL :: attachEvents attach ++ [.playCalled], .rejected e)
    | .started .ended =>
        (.createObjectURL :: attachEvents attach ++ [.playCalled] ++ cleanup ++
          [.revokeObjectURL], .resolved)
    | .started (.errored e) =>
        (.createObjectURL :: attachEvents attach ++ [.playCalled] ++ cleanup, .rejected e)

/-! ## The sequencer (`stitchVideos`, lines 9-121) -/

/-- One entry of the `videos` array as `stitchVideos` consumes it: the `name`
used in progress messages and, standing in for the `File`, the host
behaviour of playing it. -/
structure VideoFile where
  name : String
  behavior : ClipBehavior
deriving DecidableEq

/-- One `ondataavailable` payload (`e.data`), as its bytes; its `size` is the
byte count, i.e. the list length. -/
abbrev Chunk := List ℕ

/-- The object built at finalisation: `new Blob(chunks, { type })`
concatenates the buffered chunks in order and tags the mime type. -/
structure Blob where
  bytes : List ℕ
  type : String
deriving DecidableEq

/-- The argument of the `onProgress` callback, from `src/types`. -/
structure ProcessingProgress where
  currentClipIndex : ℕ
  totalClips : ℕ
  statusMessage : String
deriving DecidableEq

/-- The browser host as `stitchVideos` observes it. -/
structure Host where
  /-- whether `canvas.getContext("2d")` returns a context (line 20) -/
  ctx2dAvailable : Bool
  /-- whether `audioCtx.state` is suspended right after creation (line 37) -/
  audioSuspended : Bool
  /-- `MediaRecorder.isTypeSupported` (line 63) -/
  isTypeSupported : String → Bool
  /-- the `ondataavailable` payloads delivered over the run, in order -/
  dataEvents : List Chunk

/-- Observable host effects of `stitchVideos`. -/
inductive Ev where
  | canvasCreated
  | getContext2d
  | backgroundFilled
  | audioContextCreated
  | audioResumed
  | canvasCaptured
  | recorderCreated (mime : String)
  | recorderStarted
  | progress (p : ProcessingProgress)
  | clip (i : ℕ) (e : PEv)
  | recorderStopped
  | audioContextClosed
deriving DecidableEq

/-- Settlement of the promise returned by `stitchVideos`: a synchronous
throw, a propagated per-clip rejection (the `await` at line 99 re-raises the
driver's rejection unchanged), or resolution with the final blob. -/
inductive StitchResult where
  | thrown (msg : String)
  | rejected (e : ℕ)
  | ok (blob : Blob)
deriving DecidableEq

/-- The preference-ordered mime candidate list (lines 52-59). -/
def mimeTypes : List String :=
  [ "video/mp4;codecs=avc1,mp4a.40.2"
  , "video/mp4;codecs=avc1"
  , "video/mp4"
  , "video/webm;codecs=h264"
  , "video/webm;codecs=vp9,opus"
  , "video/webm" ]

/-- Lines 61-72: scan the candidate list in order, keep the first entry
`MediaRecorder.isTypeSupported` accepts, and fall back to `"video/webm"`
when the scan selected nothing. -/
def selectMime (isTypeSupported : String → Bool) : String :=
  match mimeTypes.find? isTypeSupported with
  | some t => t
  | none => "video/webm"

/-- The `ondataavailable` handler (lines 81-85): push the chunk onto the
buffer iff its size is positive. -/
def handleData (chunks : List Chunk) (data : Chunk) : List Chunk :=
  if data.length > 0 then chunks ++ [data] else chunks

/-- The chunk buffer after a sequence of `ondataavailable` events. -/
def recordedChunks (events : List Chunk) : List Chunk :=
  events.foldl handleData []

/-- The per-clip status message (line 96). -/
def processingMessage (i : ℕ) (name : String) : String :=
  "กำลังประมวลผลคลิปที่ " ++ toString i ++ ": " ++ name ++ "..."

/-- The finalizing status message (line 105). -/
def finalizingMessage : String := "กำลังรวมไฟล์ขั้นสุดท้าย..."

/-- The host effects of the setup phase of `stitchVideos` once the 2D context
exists (lines 25-87), in source order: background fill, `AudioContext` and
destination creation, a `resume()` when the context starts suspended,
`captureStream`, recorder creation with the selected mime type, and
`start()`. -/
def setupEvents (h : Host) (mime : String) : List Ev :=
  [.canvasCreated, .getContext2d, .backgroundFilled, .audioContextCreated] ++
  (if h.audioSuspended then [.audioResumed] else []) ++
  [.canvasCaptured, .recorderCreated mime, .recorderStarted]

/-- The `for` loop of `stitchVideos` (lines 90-100) starting at index `i`:
for each clip, emit the progress callback, then play the clip and await it.
The first rejection stops the loop (the surrounding `async` function
propagates it); otherwise the loop runs to the end.  Returns the trace and
`some e` for the first rejection, `none` when all clips resolved. -/
def runClips (total : ℕ) : List VideoFile → ℕ → List Ev × Option ℕ
  | [], _ => ([], none)
  | v :: rest, i =>
    let step := playVideoToCanvas v.behavior
    let evs := Ev.progress ⟨i + 1, total, processingMessage (i + 1) v.name⟩ ::
      step.1.map (Ev.clip i)
    match step.2 with
    | .rejected e => (evs, some e)
    | .resolved =>
      let next := runClips total rest (i + 1)
      (evs ++ next.1, next.2)

/-- `stitchVideos` (lines 9-121) as the ordered trace of host effects and the
settlement of the returned promise.

* empty input throws `"No videos to stitch"` before touching the host
  (lines 13-15);
* the canvas is created and `getContext("2d")` queried (lines 17-20); a null
  context throws `"Could not create canvas context"` before any audio,
  stream or recorder resource is created (line 22);
* then, in source order: background fill (lines 25-26), `AudioContext` and
  destination-node creation (lines 30-34), a `resume()` when the context
  starts suspended (lines 37-39), `captureStream` (line 43), mime selection
  (lines 52-72), `MediaRecorder` creation with the selected type (line 76)
  and `start()` (line 87);
* the clip loop (lines 90-100): a rejection from `playVideoToCanvas`
  propagates out of the `async` function unchanged — there is no
  `try`/`catch`, so no recorder stop, no audio-context close and no
  wrapping happen on that path;
* on success: the final progress callback (lines 102-106), then `stop()`;
  the `onstop` handler builds the blob from the buffered chunks with the
  selected mime type, closes the audio context and resolves
  (lines 109-120). -/
def stitchVideos (h : Host) (videos : List VideoFile) : List Ev × StitchResult :=
  if videos.length = 0 then ([], .thrown "No videos to stitch")
  else if !h.ctx2dAvailable then
    ([.canvasCreated, .getContext2d], .thrown "Could not create canvas context")
  else
    let selectedMimeType := selectMime h.isTypeSupported
    let loop := runClips videos.length videos 0
    match loop.2 with
    | some e => (setupEvents h selectedMimeType ++ loop.1, .rejected e)
    | none =>
      (setupEvents h selectedMimeType ++ loop.1 ++
        [.progress ⟨videos.length, videos.length, finalizingMessage⟩,
         .recorderStopped, .audioContextClosed],
       .ok ⟨(recordedChunks h.dataEvents).flatten, selectedMimeType⟩)

/-- The arguments of the `onProgress` invocations in a trace, in order. -/
def progressEvents (t : List Ev) : List ProcessingProgress :=
  t.filterMap fun e => match e with
    | .progress p => some p
    | _ => none

/-- The `(currentClipIndex, totalClips)` pairs of the `onProgress`
invocations in a trace, in order. -/
def progressIndices (t : List Ev) : List (ℕ × ℕ) :=
  (progressEvents t).map fun p => (p.currentClipIndex, p.totalClips)

/-! ## Concrete fixtures used by witnesses and counterexamples -/

/-- A clip that attaches audio, plays and ends naturally. -/
def clipOk : ClipBehavior := .metadata .ok (.started .ended)

/-- A clip whose decode fails mid-playback with error code `e`. -/
def clipDecodeFail (e : ℕ) : ClipBehavior := .metadata .ok (.started (.errored e))

/-- A fully cooperative host. -/
def hostA : Host :=
  { ctx2dAvailable := true, audioSuspended := false,
    isTypeSupported := fun _ => true, dataEvents := [[1, 2], [], [3]] }

/-- A host whose canvas cannot produce a 2D context. -/
def hostNoCtx : Host :=
  { ctx2dAvailable := false, audioSuspended := false,
    isTypeSupported := fun _ => true, dataEvents := [] }

/-- Two clips that both play to the end. -/
def vidsA : List VideoFile := [⟨"a.mp4", clipOk⟩, ⟨"b.mov", clipOk⟩]

/-! ## Helper lemmas -/

/-- Everything the setup phase emits, by case on whether the audio context
starts suspended. -/
theorem mem_setupEvents (h : Host) (m : String) (ev : Ev)
    (hev : ev ∈ setupEvents h m) :
    ev = .canvasCreated ∨ ev = .getContext2d ∨ ev = .backgroundFilled ∨
    ev = .audioContextCreated ∨ ev = .audioResumed ∨ ev = .canvasCaptured ∨
    ev = .recorderCreated m ∨ ev = .recorderStarted := by
  cases hsus : h.audioSuspended <;> simp [setupEvents, hsus] at hev <;> tauto

/-- The setup phase emits no progress events. -/
theorem progressEvents_setupEvents (h : Host) (m : String) :
    progressEvents (setupEvents h m) = [] := by
  cases hsus : h.audioSuspended <;> simp [setupEvents, hsus, progressEvents]

/-- Per-clip events carry no progress callback. -/
theorem progressEvents_clipMap (i : ℕ) (l : List PEv) :
    progressEvents (l.map (Ev.clip i)) = [] := by
  induction l with
  | nil => rfl
  | cons p rest ih => simp [progressEvents]

/-- Index extraction distributes over trace concatenation. -/
theorem progressIndices_append (a b : List Ev) :
    progressIndices (a ++ b) = progressIndices a ++ progressIndices b := by
  simp [progressIndices, progressEvents, List.filterMap_append]

/-- Index extraction through a leading progress event. -/
theorem progressIndices_cons_progress (p : ProcessingProgress) (t : List Ev) :
    progressIndices (Ev.progress p :: t) =
      (p.currentClipIndex, p.totalClips) :: progressIndices t := by
  simp [progressIndices, progressEvents]

/-- Per-clip events contribute no progress indices. -/
theorem progressIndices_clipMap (i : ℕ) (l : List PEv) :
    progressIndices (l.map (Ev.clip i)) = [] := by
  simp [progressIndices, progressEvents_clipMap]

/-- A loop over clips that all resolve: the loop result is `none` and the
progress invocations are `(i+1, total), (i+2, total), …`, one per clip. -/
theorem runClips_resolved (total : ℕ) (videos : List VideoFile) :
    ∀ i, (∀ v ∈ videos, (playVideoToCanvas v.behavior).2 = .resolved) →
      (runClips total videos i).2 = none ∧
      progressIndices (runClips total videos i).1 =
        (List.range' (i + 1) videos.length).map (fun k => (k, total)) := by
  induction videos with
  | nil => intro i _; simp [runClips, progressIndices, progressEvents]
  | cons v rest ih =>
    intro i hok
    have hv := hok v (List.mem_cons_self v rest)
    obtain ⟨ih2, ih1⟩ := ih (i + 1) fun u hu => hok u (List.mem_cons_of_mem v hu)
    refine ⟨by simp [runClips, hv, ih2], ?_⟩
    have hstep : (runClips total (v :: rest) i).1 =
        Ev.progress ⟨i + 1, total, processingMessage (i + 1) v.name⟩ ::
          ((playVideoToCanvas v.behavior).1.map (Ev.clip i) ++
            (runClips total rest (i + 1)).1) := by
      simp [runClips, hv]
    rw [hstep, progressIndices_cons_progress, progressIndices_append,
      progressIndices_clipMap, ih1]
    simp [List.range']

/-- A loop whose first failing clip is `v`, at offset `pre.length` from the
start: the loop stops there with `some e`, and every event it emitted is a
progress callback or a per-clip event of a clip index at most that of `v`. -/
theorem runClips_failed (total : ℕ) (pre : List VideoFile) (v : VideoFile)
    (post : List VideoFile) (e : ℕ) :
    ∀ i, (∀ u ∈ pre, (playVideoToCanvas u.behavior).2 = .resolved) →
      (playVideoToCanvas v.behavior).2 = .rejected e →
      (runClips total (pre ++ v :: post) i).2 = some e ∧
      ∀ ev ∈ (runClips total (pre ++ v :: post) i).1,
        (∃ p, ev = Ev.progress p) ∨
          ∃ j pe, ev = Ev.clip j pe ∧ j ≤ i + pre.length := by
  induction pre with
  | nil =>
    intro i _ hv
    refine ⟨by simp [runClips, hv], ?_⟩
    intro ev hev
    simp [runClips, hv] at hev
    rcases hev with hev | hev
    · exact Or.inl ⟨_, hev⟩
    · rcases hev with ⟨pe, -, hpe⟩
      exact Or.inr ⟨i, pe, hpe.symm, by omega⟩
  | cons u pre' ih =>
    intro i hpre hv
    have hu := hpre u (List.mem_cons_self u pre')
    obtain ⟨ih2, ih1⟩ :=
      ih (i + 1) (fun w hw => hpre w (List.mem_cons_of_mem u hw)) hv
    refine ⟨by simp [runClips, hu, ih2], ?_⟩
    intro ev hev
    simp [runClips, hu] at hev
    rcases hev with hev | hev | hev
    · exact Or.inl ⟨_, hev⟩
    · rcases hev with ⟨pe, -, hpe⟩
      exact Or.inr ⟨i, pe, hpe.symm, by omega⟩
    · rcases ih1 ev hev with hp | ⟨j, pe, hpe, hj⟩
      · exact Or.inl hp
      · exact Or.inr ⟨j, pe, hpe, by simp at hj ⊢; omega⟩

/-- A successful run: the full trace and the final blob. -/
theorem stitchVideos_resolved (h : Host) (videos : List VideoFile)
    (hne : videos ≠ []) (hctx : h.ctx2dAvailable = true)
    (hok : ∀ v ∈ videos, (playVideoToCanvas v.behavior).2 = .resolved) :
    stitchVideos h videos =
      (setupEvents h (selectMime h.isTypeSupported) ++
        (runClips videos.length videos 0).1 ++
        [.progress ⟨videos.length, videos.length, finalizingMessage⟩,
         .recorderStopped, .audioContextClosed],
       .ok ⟨(recordedChunks h.dataEvents).flatten, selectMime h.isTypeSupported⟩) := by
  have hlen : videos.length ≠ 0 := by simpa [List.length_eq_zero] using hne
  obtain ⟨h2, -⟩ := runClips_resolved videos.length videos 0 hok
  simp [stitchVideos, hlen, hctx, h2]

/-- The chunk buffer built by folding `handleData` is the filter of the
arrival list by positive size, behind any accumulator. -/
theorem foldl_handleData (events : List Chunk) :
    ∀ acc, events.foldl handleData acc =
      acc ++ events.filter (fun c => c.length > 0) := by
  induction events with
  | nil => simp
  | cons e rest ih =>
    intro acc
    by_cases hc : e.length > 0 <;>
      simp [handleData, List.filter_cons, hc, ih, List.append_assoc]

/-- In a loop over clips that all resolve, the progress event for the clip at
offset `k` occurs in the trace strictly before all of that clip's own
events. -/
theorem runClips_split (total : ℕ) (videos : List VideoFile) :
    ∀ i k, (∀ v ∈ videos, (playVideoToCanvas v.behavior).2 = .resolved) →
      k < videos.length →
      ∃ vf t1 t2, videos[k]? = some vf ∧
        (runClips total videos i).1 =
          t1 ++ Ev.progress ⟨i + k + 1, total,
            processingMessage (i + k + 1) vf.name⟩ :: t2 ∧
        ∀ pe, Ev.clip (i + k) pe ∉ t1 := by
  induction videos with
  | nil => intro i k _ hk; simp at hk
  | cons v rest ih =>
    intro i k hok hk
    have hv := hok v (List.mem_cons_self v rest)
    have hstep : (runClips total (v :: rest) i).1 =
        Ev.progress ⟨i + 1, total, processingMessage (i + 1) v.name⟩ ::
          ((playVideoToCanvas v.behavior).1.map (Ev.clip i) ++
            (runClips total rest (i + 1)).1) := by
      simp [runClips, hv]
    cases k with
    | zero =>
      refine ⟨v, [],
        (playVideoToCanvas v.behavior).1.map (Ev.clip i) ++
          (runClips total rest (i + 1)).1, by simp, ?_, by simp⟩
      simpa using hstep
    | succ k' =>
      obtain ⟨vf, t1, t2, hg, htr, hnc⟩ :=
        ih (i + 1) k' (fun u hu => hok u (List.mem_cons_of_mem v hu))
          (by simpa using hk)
      have harith : i + 1 + k' + 1 = i + (k' + 1) + 1 := by omega
      rw [harith] at htr
      refine ⟨vf, Ev.progress ⟨i + 1, total, processingMessage (i + 1) v.name⟩ ::
        ((playVideoToCanvas v.behavior).1.map (Ev.clip i) ++ t1), t2, ?_, ?_, ?_⟩
      · simpa using hg
      · rw [hstep, htr]
        simp [List.append_assoc]
      · intro pe
        simp only [List.mem_cons, List.mem_append, not_or]
        refine ⟨by simp, ?_, ?_⟩
        · intro hm
          rcases List.mem_map.mp hm with ⟨a, -, ha⟩
          have := (Ev.clip.injEq _ _ _ _).mp ha
          omega
        · have hidx : i + 1 + k' = i + (k' + 1) := by omega
          rw [← hidx]
          exact hnc pe

/-! ## Claim theorems -/

/-- C4 counterexample: a frame of 3200×900 has a wider aspect ratio than the
1280×720 target, yet the computed draw height is 360, not the target height
720 — the claim state the letterbox axes the wrong way round. -/
theorem C4_counterexample :
    (1280 : ℚ) / 720 < 3200 / 900 ∧
    (drawFrameRect 1280 720 3200 900).h ≠ 720 ∧
    (drawFrameRect 1280 720 3200 900).h = 360 := by
  refine ⟨by norm_num, ?_, ?_⟩ <;> norm_num [drawFrameRect, min_def]

/-- C4 (amended): for positive dimensions, a frame wider in aspect than the
target gets draw width equal to `targetWidth` (and is letterboxed), a frame
taller in aspect gets draw height equal to `targetHeight` (and is
pillarboxed), and in all cases the drawn rectangle is centred: the margins on
each axis are equal, i.e. `2*x + w = targetWidth` and `2*y + h =
targetHeight`. -/
theorem C4_letterbox (tw th fw fh : ℚ) (htw : 0 < tw) (hth : 0 < th)
    (hfw : 0 < fw) (hfh : 0 < fh) :
    (tw * fh < fw * th → (drawFrameRect tw th fw fh).w = tw) ∧
    (fw * th < tw * fh → (drawFrameRect tw th fw fh).h = th) ∧
    2 * (drawFrameRect tw th fw fh).x + (drawFrameRect tw th fw fh).w = tw ∧
    2 * (drawFrameRect tw th fw fh).y + (drawFrameRect tw th fw fh).h = th := by
  have hfw' : fw ≠ 0 := ne_of_gt hfw
  have hfh' : fh ≠ 0 := ne_of_gt hfh
  refine ⟨?_, ?_, ?_, ?_⟩
  · intro hlt
    have h1 : tw / fw < th / fh := by rw [div_lt_div_iff₀ hfw hfh]; linarith
    simp only [drawFrameRect, min_eq_left h1.le]
    field_simp
  · intro hlt
    have h1 : th / fh < tw / fw := by rw [div_lt_div_iff₀ hfh hfw]; linarith
    simp only [drawFrameRect, min_eq_right h1.le]
    field_simp
  · simp only [drawFrameRect]; ring
  · simp only [drawFrameRect]; ring

/-- C4 witness: the amended letterboxing claim evaluated at a 3200×900 frame
against the 1280×720 target. -/
theorem C4_letterbox_witness :
    ((0 : ℚ) < 1280 ∧ (0 : ℚ) < 720 ∧ (0 : ℚ) < 3200 ∧ (0 : ℚ) < 900) ∧
    ((1280 * 900 : ℚ) < 3200 * 720 → (drawFrameRect 1280 720 3200 900).w = 1280) :=
  ⟨by norm_num, (C4_letterbox 1280 720 3200 900 (by norm_num) (by norm_num)
    (by norm_num) (by norm_num)).1⟩

/-- C8: for a frame with a zero dimension (and positive target dimensions),
the `drawFrame` tick paints nothing and raises no error — the target keeps
the freshly painted black background. -/
theorem C8_zero_dimension (tw th fw fh : ℚ) (htw : 0 < tw) (hth : 0 < th)
    (h0 : fw = 0 ∨ fh = 0) :
    drawFrame tw th fw fh = .skipped := by
  rcases h0 with h0 | h0
  · subst h0
    rcases eq_or_ne fh 0 with hfh | hfh
    · subst hfh
      simp [drawFrame, jsDiv, jsMin, jsMulQ, jsSubQ, jsHalf, htw, hth, htw.ne', hth.ne']
    · simp [drawFrame, jsDiv, jsMin, jsMulQ, jsSubQ, jsHalf, htw, hth, htw.ne', hfh]
  · subst h0
    rcases eq_or_ne fw 0 with hfw | hfw
    · subst hfw
      simp [drawFrame, jsDiv, jsMin, jsMulQ, jsSubQ, jsHalf, htw, hth, htw.ne', hth.ne']
    · simp [drawFrame, jsDiv, jsMin, jsMulQ, jsSubQ, jsHalf, htw, hth, hth.ne', hfw]

/-- C8 witness: a 0×0 frame against the 1280×720 target is skipped. -/
theorem C8_zero_dimension_witness :
    ((0 : ℚ) < 1280 ∧ (0 : ℚ) < 720 ∧ ((0 : ℚ) = 0 ∨ (0 : ℚ) = 0)) ∧
    drawFrame 1280 720 0 0 = .skipped :=
  ⟨by norm_num, C8_zero_dimension 1280 720 0 0 (by norm_num) (by norm_num)
    (Or.inl rfl)⟩

/-- C3: the claim is right and the code is wrong.  On the natural-end exit
the driver disconnects the audio source and revokes the object URL, but on
the decode-error exit (`onerror`, lines 188-193) it rejects after
disconnecting the audio source without ever revoking the clip's object URL:
`URL.revokeObjectURL` (line 184) runs only inside `onended`. -/
theorem C3_error_path_leaks_url :
    playVideoToCanvas (.metadata .ok (.started .ended)) =
      ([.createObjectURL, .audioSourceCreated, .audioConnected, .playCalled,
        .audioDisconnected, .revokeObjectURL], .resolved) ∧
    playVideoToCanvas (.metadata .ok (.started (.errored 5))) =
      ([.createObjectURL, .audioSourceCreated, .audioConnected, .playCalled,
        .audioDisconnected], .rejected 5) ∧
    PEv.revokeObjectURL ∉ (playVideoToCanvas (.metadata .ok (.started (.errored 5)))).1 := by
  refine ⟨rfl, rfl, ?_⟩
  decide

/-- C7: a failed audio attach (either `createMediaElementSource` or
`connect` throwing) is caught: the driver still calls `video.play()`, the
clip contributes no audio (no `connect` succeeded), and the promise settles
exactly as it would have with a successful attach — so the run is not
aborted by the attach failure. -/
theorem C7_audio_attach_nonfatal (attach : AttachOutcome) (start : StartOutcome)
    (hne : attach ≠ .ok) :
    PEv.playCalled ∈ (playVideoToCanvas (.metadata attach start)).1 ∧
    PEv.audioConnected ∉ (playVideoToCanvas (.metadata attach start)).1 ∧
    (playVideoToCanvas (.metadata attach start)).2 =
      (playVideoToCanvas (.metadata .ok start)).2 ∧
    (start = .started .ended →
      (playVideoToCanvas (.metadata attach start)).2 = .resolved) := by
  cases attach with
  | ok => exact absurd rfl hne
  | createThrew =>
    cases start with
    | rejected e =>
      refine ⟨?_, ?_, rfl, ?_⟩ <;> simp [playVideoToCanvas, attachEvents, sourceMade]
    | started o =>
      cases o <;>
        (refine ⟨?_, ?_, rfl, ?_⟩ <;> simp [playVideoToCanvas, attachEvents, sourceMade])
  | connectThrew =>
    cases start with
    | rejected e =>
      refine ⟨?_, ?_, rfl, ?_⟩ <;> simp [playVideoToCanvas, attachEvents, sourceMade]
    | started o =>
      cases o <;>
        (refine ⟨?_, ?_, rfl, ?_⟩ <;> simp [playVideoToCanvas, attachEvents, sourceMade])

/-- C7 witness: a clip whose `createMediaElementSource` throws still plays to
its natural end and resolves. -/
theorem C7_audio_attach_nonfatal_witness :
    (AttachOutcome.createThrew ≠ AttachOutcome.ok) ∧
    (PEv.playCalled ∈
      (playVideoToCanvas (.metadata .createThrew (.started .ended))).1 ∧
    PEv.audioConnected ∉
      (playVideoToCanvas (.metadata .createThrew (.started .ended))).1 ∧
    (playVideoToCanvas (.metadata .createThrew (.started .ended))).2 =
      (playVideoToCanvas (.metadata .ok (.started .ended))).2 ∧
    (StartOutcome.started .ended = .started .ended →
      (playVideoToCanvas (.metadata .createThrew (.started .ended))).2 = .resolved)) :=
  ⟨by decide, C7_audio_attach_nonfatal .createThrew (.started .ended) (by decide)⟩

/-- C5: on the empty clip list `stitchVideos` throws "No videos to stitch"
immediately: the trace is empty, so in particular no canvas, audio context,
capture stream or recorder is created and the recorder is never started. -/
theorem C5_empty_input (h : Host) :
    stitchVideos h [] = ([], .thrown "No videos to stitch") ∧
    Ev.canvasCreated ∉ (stitchVideos h []).1 ∧
    Ev.audioContextCreated ∉ (stitchVideos h []).1 ∧
    Ev.canvasCaptured ∉ (stitchVideos h []).1 ∧
    (∀ m, Ev.recorderCreated m ∉ (stitchVideos h []).1) ∧
    Ev.recorderStarted ∉ (stitchVideos h []).1 := by
  refine ⟨rfl, ?_, ?_, ?_, ?_, ?_⟩ <;> simp [stitchVideos]

/-- C5 witness: the empty-input behaviour at a concrete host. -/
theorem C5_empty_input_witness :
    stitchVideos hostA [] = ([], .thrown "No videos to stitch") :=
  (C5_empty_input hostA).1

/-- C10: when `getContext("2d")` yields no context, `stitchVideos` throws
"Could not create canvas context" right after the canvas query: no audio
context, capture stream or recorder is created, and the recorder is never
started. -/
theorem C10_no_context (h : Host) (videos : List VideoFile)
    (hne : videos ≠ []) (hctx : h.ctx2dAvailable = false) :
    stitchVideos h videos =
      ([.canvasCreated, .getContext2d], .thrown "Could not create canvas context") ∧
    Ev.audioContextCreated ∉ (stitchVideos h videos).1 ∧
    Ev.canvasCaptured ∉ (stitchVideos h videos).1 ∧
    (∀ m, Ev.recorderCreated m ∉ (stitchVideos h videos).1) ∧
    Ev.recorderStarted ∉ (stitchVideos h videos).1 := by
  have hlen : videos.length ≠ 0 := by
    simpa [List.length_eq_zero] using hne
  have heq : stitchVideos h videos =
      ([.canvasCreated, .getContext2d], .thrown "Could not create canvas context") := by
    simp [stitchVideos, hlen, hctx]
  refine ⟨heq, ?_, ?_, ?_, ?_⟩ <;> rw [heq] <;> simp

/-- C10 witness: the null-context behaviour at a concrete host and one-clip
list. -/
theorem C10_no_context_witness :
    ([⟨"a.mp4", clipOk⟩] ≠ ([] : List VideoFile) ∧ hostNoCtx.ctx2dAvailable = false) ∧
    stitchVideos hostNoCtx [⟨"a.mp4", clipOk⟩] =
      ([.canvasCreated, .getContext2d], .thrown "Could not create canvas context") :=
  ⟨⟨by decide, rfl⟩, (C10_no_context hostNoCtx [⟨"a.mp4", clipOk⟩] (by decide) rfl).1⟩

/-- C1 counterexample: with a cooperative host and the first of two clips
failing mid-decode, `stitchVideos` never signals the recorder to stop and
never closes the audio context, and the surfaced error is the raw cause with
no clip index attached — a run failing at index 0 and a run failing at
index 1 with the same cause produce identical errors. -/
theorem C1_counterexample :
    Ev.recorderStopped ∉
      (stitchVideos hostA [⟨"a.mp4", clipDecodeFail 7⟩, ⟨"b.mov", clipOk⟩]).1 ∧
    Ev.audioContextClosed ∉
      (stitchVideos hostA [⟨"a.mp4", clipDecodeFail 7⟩, ⟨"b.mov", clipOk⟩]).1 ∧
    (stitchVideos hostA [⟨"a.mp4", clipDecodeFail 7⟩, ⟨"b.mov", clipOk⟩]).2 =
      .rejected 7 ∧
    (stitchVideos hostA [⟨"a.mp4", clipOk⟩, ⟨"b.mov", clipDecodeFail 7⟩]).2 =
      .rejected 7 := by
  refine ⟨?_, ?_, ?_, ?_⟩ <;> decide

/-- C1 (amended): when the per-clip driver rejects for the clip at index
`pre.length` (all earlier clips having resolved), `stitchVideos` aborts the
remaining clips — no clip with a larger index is driven — and returns no
partial output: the promise rejects with the originating error unchanged.
However it does not signal the `MediaRecorder` to stop and does not close
the `AudioContext` on this path, and the error is not wrapped with the clip
index. -/
theorem C1_clip_failure (h : Host) (pre : List VideoFile) (v : VideoFile)
    (post : List VideoFile) (e : ℕ)
    (hctx : h.ctx2dAvailable = true)
    (hpre : ∀ u ∈ pre, (playVideoToCanvas u.behavior).2 = .resolved)
    (hv : (playVideoToCanvas v.behavior).2 = .rejected e) :
    (stitchVideos h (pre ++ v :: post)).2 = .rejected e ∧
    Ev.recorderStopped ∉ (stitchVideos h (pre ++ v :: post)).1 ∧
    Ev.audioContextClosed ∉ (stitchVideos h (pre ++ v :: post)).1 ∧
    ∀ j pe, Ev.clip j pe ∈ (stitchVideos h (pre ++ v :: post)).1 →
      j ≤ pre.length := by
  have hlen : (pre ++ v :: post).length ≠ 0 := by simp
  obtain ⟨h2, h1⟩ :=
    runClips_failed (pre ++ v :: post).length pre v post e 0 hpre hv
  have heq : stitchVideos h (pre ++ v :: post) =
      (setupEvents h (selectMime h.isTypeSupported) ++
        (runClips (pre ++ v :: post).length (pre ++ v :: post) 0).1,
       .rejected e) := by
    have h2' : (runClips (pre.length + (post.length + 1))
        (pre ++ v :: post) 0).2 = some e := by simpa using h2
    simp [stitchVideos, hlen, hctx, h2']
  refine ⟨by rw [heq], ?_, ?_, ?_⟩
  · rw [heq]
    simp only [List.mem_append, not_or]
    refine ⟨?_, ?_⟩
    · intro hm
      rcases mem_setupEvents _ _ _ hm with h' | h' | h' | h' | h' | h' | h' | h' <;>
        simp at h'
    · intro hm
      rcases h1 _ hm with ⟨p, hp⟩ | ⟨j, pe, hpe, -⟩
      · simp at hp
      · simp at hpe
  · rw [heq]
    simp only [List.mem_append, not_or]
    refine ⟨?_, ?_⟩
    · intro hm
      rcases mem_setupEvents _ _ _ hm with h' | h' | h' | h' | h' | h' | h' | h' <;>
        simp at h'
    · intro hm
      rcases h1 _ hm with ⟨p, hp⟩ | ⟨j, pe, hpe, -⟩
      · simp at hp
      · simp at hpe
  · intro j pe hm
    rw [heq] at hm
    simp only [List.mem_append] at hm
    rcases hm with hm | hm
    · rcases mem_setupEvents _ _ _ hm with h' | h' | h' | h' | h' | h' | h' | h' <;>
        simp at h'
    · rcases h1 _ hm with ⟨p, hp⟩ | ⟨j', pe', hpe, hj⟩
      · simp at hp
      · obtain ⟨rfl, rfl⟩ := (Ev.clip.injEq _ _ _ _).mp hpe
        simpa using hj

/-- C1 witness: the amended claim at a host and two clips whose second one
fails with cause 9. -/
theorem C1_clip_failure_witness :
    (hostA.ctx2dAvailable = true ∧
     (∀ u ∈ [(⟨"a.mp4", clipOk⟩ : VideoFile)],
        (playVideoToCanvas u.behavior).2 = .resolved) ∧
     (playVideoToCanvas (clipDecodeFail 9)).2 = .rejected 9) ∧
    (stitchVideos hostA
      ([⟨"a.mp4", clipOk⟩] ++ ⟨"b.mov", clipDecodeFail 9⟩ :: [])).2 =
      .rejected 9 :=
  ⟨⟨rfl, by decide, by decide⟩,
   (C1_clip_failure hostA [⟨"a.mp4", clipOk⟩] ⟨"b.mov", clipDecodeFail 9⟩ [] 9 rfl
     (by decide) (by decide)).1⟩

/-- C2: for a non-empty list of `N` clips that all resolve, the `onProgress`
invocations are exactly `(1, N), (2, N), …, (N, N)` followed by one final
`(N, N)` — so there are `N + 1` of them, `currentClipIndex` is strictly
increasing from 1 to `N` over the per-clip calls; moreover each per-clip
call happens in the trace strictly before any event of its clip, and the
final call comes after all clips, right before the recorder stops. -/
theorem C2_progress (h : Host) (videos : List VideoFile)
    (hne : videos ≠ []) (hctx : h.ctx2dAvailable = true)
    (hok : ∀ v ∈ videos, (playVideoToCanvas v.behavior).2 = .resolved) :
    progressIndices (stitchVideos h videos).1 =
      (List.range' 1 videos.length).map (fun k => (k, videos.length)) ++
        [(videos.length, videos.length)] ∧
    (progressIndices (stitchVideos h videos).1).length = videos.length + 1 ∧
    (∀ k, k < videos.length →
      ∃ vf t1 t2, videos[k]? = some vf ∧
        (stitchVideos h videos).1 =
          t1 ++ Ev.progress ⟨k + 1, videos.length,
            processingMessage (k + 1) vf.name⟩ :: t2 ∧
        ∀ pe, Ev.clip k pe ∉ t1) ∧
    ∃ t0, (stitchVideos h videos).1 =
      t0 ++ [Ev.progress ⟨videos.length, videos.length, finalizingMessage⟩,
             Ev.recorderStopped, Ev.audioContextClosed] := by
  have heq := stitchVideos_resolved h videos hne hctx hok
  obtain ⟨-, hpi⟩ := runClips_resolved videos.length videos 0 hok
  have hmain : progressIndices (stitchVideos h videos).1 =
      (List.range' 1 videos.length).map (fun k => (k, videos.length)) ++
        [(videos.length, videos.length)] := by
    rw [heq]
    simp only [progressIndices_append]
    rw [hpi]
    have hsetup : progressIndices (setupEvents h (selectMime h.isTypeSupported)) = [] := by
      simp [progressIndices, progressEvents_setupEvents]
    rw [hsetup]
    simp [progressIndices, progressEvents]
  refine ⟨hmain, ?_, ?_, ?_⟩
  · rw [hmain]; simp
  · intro k hk
    obtain ⟨vf, t1, t2, hg, htr, hnc⟩ :=
      runClips_split videos.length videos 0 k hok hk
    simp only [Nat.zero_add] at htr hnc
    refine ⟨vf, setupEvents h (selectMime h.isTypeSupported) ++ t1,
      t2 ++ [Ev.progress ⟨videos.length, videos.length, finalizingMessage⟩,
             Ev.recorderStopped, Ev.audioContextClosed], hg, ?_, ?_⟩
    · rw [heq, htr]
      simp [List.append_assoc]
    · intro pe
      simp only [List.mem_append, not_or]
      refine ⟨?_, ?_⟩
      · intro hm
        rcases mem_setupEvents _ _ _ hm with h' | h' | h' | h' | h' | h' | h' | h' <;>
          simp at h'
      · exact hnc pe
  · exact ⟨setupEvents h (selectMime h.isTypeSupported) ++
      (runClips videos.length videos 0).1, by rw [heq]⟩

/-- C2 witness: the progress invariant evaluated over two clips. -/
theorem C2_progress_witness :
    (vidsA ≠ [] ∧ hostA.ctx2dAvailable = true ∧
      ∀ v ∈ vidsA, (playVideoToCanvas v.behavior).2 = .resolved) ∧
    progressIndices (stitchVideos hostA vidsA).1 =
      (List.range' 1 vidsA.length).map (fun k => (k, vidsA.length)) ++
        [(vidsA.length, vidsA.length)] :=
  ⟨⟨by decide, rfl, by decide⟩,
   (C2_progress hostA vidsA (by decide) rfl (by decide)).1⟩

/-- C6: `selectMime` is exactly the first-supported scan of the fixed
candidate list with a `"video/webm"` fallback when none is supported (it
never fails), and a successful run's finalized blob is tagged with exactly
the selected mime type. -/
theorem C6_mime (h : Host) (videos : List VideoFile)
    (hne : videos ≠ []) (hctx : h.ctx2dAvailable = true)
    (hok : ∀ v ∈ videos, (playVideoToCanvas v.behavior).2 = .resolved) :
    (∀ sup : String → Bool,
      selectMime sup =
        if sup "video/mp4;codecs=avc1,mp4a.40.2" then
          "video/mp4;codecs=avc1,mp4a.40.2"
        else if sup "video/mp4;codecs=avc1" then "video/mp4;codecs=avc1"
        else if sup "video/mp4" then "video/mp4"
        else if sup "video/webm;codecs=h264" then "video/webm;codecs=h264"
        else if sup "video/webm;codecs=vp9,opus" then "video/webm;codecs=vp9,opus"
        else "video/webm") ∧
    ∃ blob, (stitchVideos h videos).2 = .ok blob ∧
      blob.type = selectMime h.isTypeSupported := by
  constructor
  · intro sup
    simp only [selectMime, mimeTypes]
    cases h0 : sup "video/mp4;codecs=avc1,mp4a.40.2" <;>
    cases h1 : sup "video/mp4;codecs=avc1" <;>
    cases h2 : sup "video/mp4" <;>
    cases h3 : sup "video/webm;codecs=h264" <;>
    cases h4 : sup "video/webm;codecs=vp9,opus" <;>
    cases h5 : sup "video/webm" <;>
    simp [List.find?, h0, h1, h2, h3, h4, h5]
  · have heq := stitchVideos_resolved h videos hne hctx hok
    exact ⟨_, by rw [heq], rfl⟩

/-- C6 witness: a successful run yields a blob tagged with the selected mime
type. -/
theorem C6_mime_witness :
    (vidsA ≠ [] ∧ hostA.ctx2dAvailable = true ∧
      ∀ v ∈ vidsA, (playVideoToCanvas v.behavior).2 = .resolved) ∧
    ∃ blob, (stitchVideos hostA vidsA).2 = .ok blob ∧
      blob.type = selectMime hostA.isTypeSupported :=
  ⟨⟨by decide, rfl, by decide⟩,
   (C6_mime hostA vidsA (by decide) rfl (by decide)).2⟩

/-- C9: the chunk buffer accumulates exactly the positive-size chunks in
arrival order — a zero-size chunk leaves it unchanged — and the finalized
blob is the in-order concatenation of exactly those chunks. -/
theorem C9_chunks (h : Host) (videos : List VideoFile)
    (hne : videos ≠ []) (hctx : h.ctx2dAvailable = true)
    (hok : ∀ v ∈ videos, (playVideoToCanvas v.behavior).2 = .resolved) :
    (∀ events : List Chunk,
      recordedChunks events = events.filter (fun c => c.length > 0)) ∧
    (∀ (chunks : List Chunk) (c : Chunk), c.length = 0 →
      handleData chunks c = chunks) ∧
    (stitchVideos h videos).2 =
      .ok ⟨(h.dataEvents.filter (fun c => c.length > 0)).flatten,
           selectMime h.isTypeSupported⟩ := by
  refine ⟨fun events => by simpa [recordedChunks] using foldl_handleData events [],
    ?_, ?_⟩
  · intro chunks c hc
    simp [handleData, hc]
  · have heq := stitchVideos_resolved h videos hne hctx hok
    rw [heq]
    simp [recordedChunks, foldl_handleData]

/-- C9 witness: the finalized blob over a concrete chunk arrival sequence
containing an empty chunk. -/
theorem C9_chunks_witness :
    (vidsA ≠ [] ∧ hostA.ctx2dAvailable = true ∧
      ∀ v ∈ vidsA, (playVideoToCanvas v.behavior).2 = .resolved) ∧
    (stitchVideos hostA vidsA).2 =
      .ok ⟨(hostA.dataEvents.filter (fun c => c.length > 0)).flatten,
           selectMime hostA.isTypeSupported⟩ :=
  ⟨⟨by decide, rfl, by decide⟩,
   (C9_chunks hostA vidsA (by decide) rfl (by decide)).2.2⟩

end ClipStitch
